import Mathlib

/-!
Verification development for the similarity-based fallback cache of the
trade-dashboard repository (`src/lib/cache/gemini-cache-redis.ts`,
`src/app/api/ai-prediction/route.ts`, `src/lib/types/errors.ts`).

JavaScript numbers are modelled as exact rationals (`ℚ`); the two
transcendental steps of the scorer (`Math.sqrt`, `Math.exp`) are modelled
over `ℝ`.  The decimal strings produced by `Number.prototype.toFixed(f)`
are modelled as the pair (scaled integer digits, precision `f`), a
representation in bijection with the produced string for each fixed `f`.
-/

/-- The nine indicator keys iterated by the cache, in the source's order
`['us10y','dxy','spread','m2','oil','ratio','pmi','vix','btc']`
(`ratioK` models the source key `ratio`). -/
inductive Ind
  | us10y | dxy | spread | m2 | oil | ratioK | pmi | vix | btc
  deriving DecidableEq, Repr

/-- The source's `keys` list (`Object.keys(minThresholds)` /
the literal key list of `calculateDynamicRanges`). -/
def indKeys : List Ind :=
  [.us10y, .dxy, .spread, .m2, .oil, .ratioK, .pmi, .vix, .btc]

/-- JavaScript rounding to the nearest integer with ties towards `+∞`:
the semantics of `Math.round` and of the integer selection inside
`Number.prototype.toFixed`. -/
def roundHalfUp (x : ℚ) : ℤ := Rat.floor (x + 1 / 2)

/-- `roundHalfUp` agrees with the mathematical floor of `x + 1/2`. -/
theorem roundHalfUp_eq_floor (x : ℚ) : roundHalfUp x = ⌊x + 1 / 2⌋ := by
  rw [roundHalfUp, Rat.floor_def', ← Rat.floor_def]

/-- A decimal numeral with a fixed number of fraction digits, as produced
by `value.toFixed(prec)`: `digits` is the scaled integer mantissa, the
denoted number is `digits / 10 ^ prec`.  For each fixed `prec` this is in
bijection with the emitted string. -/
structure FixedDec where
  digits : ℤ
  prec : ℕ
  deriving DecidableEq, Repr

/-- `x.toFixed(f)` (ECMAScript: the integer `n` such that `n / 10 ^ f` is
closest to `x`, ties resolved to the larger `n`). -/
def toFixed (f : ℕ) (x : ℚ) : FixedDec := ⟨roundHalfUp (x * 10 ^ f), f⟩

/-- `parseFloat` applied to the decimal numeral: its exact rational value. -/
def FixedDec.toQ (d : FixedDec) : ℚ := d.digits / 10 ^ d.prec

/-- The `data.indicators` record of `DashboardData`, to the extent the
cache reads it: one numeric `value` per indicator.  A field absent from
the unvalidated request body is `none`; reading `.value` of an absent
field throws a `TypeError`.  Fields `copperGold` and `putCall` model the
source fields `copperGoldRatio` and `putCallRatio`. -/
structure DashboardData where
  us10yYield : Option ℚ
  dxy : Option ℚ
  highYieldSpread : Option ℚ
  m2MoneySupply : Option ℚ
  crudeOil : Option ℚ
  copperGold : Option ℚ
  pmi : Option ℚ
  putCall : Option ℚ
  bitcoin : Option ℚ
  deriving DecidableEq, Repr

/-- A fully populated snapshot, all nine indicator values present. -/
def mkData (u x s m o r p v b : ℚ) : DashboardData :=
  ⟨some u, some x, some s, some m, some o, some r, some p, some v, some b⟩

/-- Thrown JavaScript values, to the extent the dashboard code
distinguishes them: results of `createQuotaError` satisfy `isQuotaError`;
everything else — including the `TypeError` raised by reading a property
of `undefined` — does not. -/
inductive JsErr
  | typeErr
  | quotaExceeded
  | generic
  deriving DecidableEq, Repr

/-- `isQuotaError` from `src/lib/types/errors.ts`: true exactly for thrown
values carrying `isQuotaError === true`. -/
def isQuotaError : JsErr → Bool
  | .quotaExceeded => true
  | _ => false

/-- The JSON object serialized by `hashData`: nine `toFixed` numerals in a
fixed field order.  `JSON.stringify` of this fixed-shape object is
injective, so the fingerprint string is modelled by this structure
(`ratioK` models the source field `ratio`). -/
structure Fingerprint where
  us10y : FixedDec
  dxy : FixedDec
  spread : FixedDec
  m2 : FixedDec
  oil : FixedDec
  ratioK : FixedDec
  pmi : FixedDec
  vix : FixedDec
  btc : FixedDec
  deriving DecidableEq, Repr

/-- Reading `.value` of a possibly absent indicator object: throws a
`TypeError` when the indicator is missing. -/
def getVal (v : Option ℚ) : Except JsErr ℚ :=
  match v with
  | none => .error .typeErr
  | some x => .ok x

/-- `hashData` from `gemini-cache-redis.ts` lines 318–332: round each
indicator to its per-indicator step (`toFixed(2)` for `us10y`,
`toFixed(1)` for `dxy`/`spread`/`oil`/`pmi`/`vix`, `toFixed(0)` for `m2`,
`toFixed(2)` for `ratio`, and `Math.round(btc / 500) * 500` with
`toFixed(0)` for `btc`), then serialize the rounded values in fixed field
order. -/
def hashData (data : DashboardData) : Except JsErr Fingerprint := do
  let u ← getVal data.us10yYield
  let x ← getVal data.dxy
  let s ← getVal data.highYieldSpread
  let m ← getVal data.m2MoneySupply
  let o ← getVal data.crudeOil
  let r ← getVal data.copperGold
  let p ← getVal data.pmi
  let v ← getVal data.putCall
  let b ← getVal data.bitcoin
  return { us10y := toFixed 2 u
           dxy := toFixed 1 x
           spread := toFixed 1 s
           m2 := toFixed 0 m
           oil := toFixed 1 o
           ratioK := toFixed 2 r
           pmi := toFixed 1 p
           vix := toFixed 1 v
           btc := toFixed 0 ((roundHalfUp (b / 500) : ℚ) * 500) }

/-- Field selection on the parsed JSON object, by indicator key. -/
def Fingerprint.get (fp : Fingerprint) : Ind → FixedDec
  | .us10y => fp.us10y
  | .dxy => fp.dxy
  | .spread => fp.spread
  | .m2 => fp.m2
  | .oil => fp.oil
  | .ratioK => fp.ratioK
  | .pmi => fp.pmi
  | .vix => fp.vix
  | .btc => fp.btc

/-- `parseHash` from `gemini-cache-redis.ts` lines 91–104: `JSON.parse`
the fingerprint and `parseFloat` each field, recovering the exact rounded
rational for every indicator key. -/
def parseHash (fp : Fingerprint) : Ind → ℚ := fun k => (fp.get k).toQ

/-- The fingerprint `hashData` builds from the nine raw values. -/
def fpOf (u x s m o r p v b : ℚ) : Fingerprint :=
  { us10y := toFixed 2 u
    dxy := toFixed 1 x
    spread := toFixed 1 s
    m2 := toFixed 0 m
    oil := toFixed 1 o
    ratioK := toFixed 2 r
    pmi := toFixed 1 p
    vix := toFixed 1 v
    btc := toFixed 0 ((roundHalfUp (b / 500) : ℚ) * 500) }

/-- C6: two snapshots whose indicator values round to identical values
under the fixed per-indicator rounding steps produce equal fingerprints. -/
theorem hashData_deterministic
    (u₁ x₁ s₁ m₁ o₁ r₁ p₁ v₁ b₁ u₂ x₂ s₂ m₂ o₂ r₂ p₂ v₂ b₂ : ℚ)
    (hu : toFixed 2 u₁ = toFixed 2 u₂) (hx : toFixed 1 x₁ = toFixed 1 x₂)
    (hs : toFixed 1 s₁ = toFixed 1 s₂) (hm : toFixed 0 m₁ = toFixed 0 m₂)
    (ho : toFixed 1 o₁ = toFixed 1 o₂) (hr : toFixed 2 r₁ = toFixed 2 r₂)
    (hp : toFixed 1 p₁ = toFixed 1 p₂) (hv : toFixed 1 v₁ = toFixed 1 v₂)
    (hb : roundHalfUp (b₁ / 500) = roundHalfUp (b₂ / 500)) :
    hashData (mkData u₁ x₁ s₁ m₁ o₁ r₁ p₁ v₁ b₁)
      = hashData (mkData u₂ x₂ s₂ m₂ o₂ r₂ p₂ v₂ b₂) := by
  simp only [hashData, mkData, getVal, bind, Except.bind, hu, hx, hs, hm,
    ho, hr, hp, hv, hb]

/-- C6 witness: the spec's concrete scenario. Snapshot A has
`us10y = 4.523`, `dxy = 104.97`; snapshot B has `us10y = 4.524`,
`dxy = 104.96`; both round to `4.52` (two decimals) and `105.0` (one
decimal), and the two fingerprints are equal. -/
theorem hashData_deterministic_witness :
    toFixed 2 (4523 / 1000) = ⟨452, 2⟩ ∧ toFixed 2 (4524 / 1000) = ⟨452, 2⟩ ∧
    toFixed 1 (10497 / 100) = ⟨1050, 1⟩ ∧ toFixed 1 (10496 / 100) = ⟨1050, 1⟩ ∧
    hashData (mkData (4523 / 1000) (10497 / 100) 310 21000 80 (452 / 100) 48 1 91000)
      = hashData (mkData (4524 / 1000) (10496 / 100) 310 21000 80 (452 / 100) 48 1 91000) :=
  ⟨by norm_num [toFixed, roundHalfUp_eq_floor],
    by norm_num [toFixed, roundHalfUp_eq_floor],
    by norm_num [toFixed, roundHalfUp_eq_floor],
    by norm_num [toFixed, roundHalfUp_eq_floor],
    hashData_deterministic _ _ _ _ _ _ _ _ _ _ _ _ _ _ _ _ _ _
      (by norm_num [toFixed, roundHalfUp_eq_floor])
      (by norm_num [toFixed, roundHalfUp_eq_floor]) rfl rfl rfl rfl rfl rfl rfl⟩

/-- C7: for every complete snapshot, `hashData` succeeds with the
fingerprint of the per-indicator rounded values, and `parseHash` applied
to that fingerprint returns exactly those rounded numeric values (the
value of each emitted `toFixed` numeral), not the original unrounded
values. -/
theorem parseHash_hashData (u x s m o r p v b : ℚ) :
    hashData (mkData u x s m o r p v b) = Except.ok (fpOf u x s m o r p v b) ∧
    parseHash (fpOf u x s m o r p v b) = fun k =>
      match k with
      | .us10y => (toFixed 2 u).toQ
      | .dxy => (toFixed 1 x).toQ
      | .spread => (toFixed 1 s).toQ
      | .m2 => (toFixed 0 m).toQ
      | .oil => (toFixed 1 o).toQ
      | .ratioK => (toFixed 2 r).toQ
      | .pmi => (toFixed 1 p).toQ
      | .vix => (toFixed 1 v).toQ
      | .btc => (toFixed 0 ((roundHalfUp (b / 500) : ℚ) * 500)).toQ := by
  refine ⟨rfl, ?_⟩
  funext k
  cases k <;> rfl

/-- `MarketPrediction` payloads (sentiment, reasoning, risks, …) are
opaque to the cache logic; a numeric tag models a payload. -/
structure MarketPrediction where
  tag : ℕ
  deriving DecidableEq, Repr

/-- `CachedPrediction`, the value stored under both the exact-match key
and the fallback key: the payload, the write timestamp (milliseconds) and
the data fingerprint. -/
structure CachedPrediction where
  prediction : MarketPrediction
  timestamp : ℚ
  dataHash : Fingerprint
  deriving DecidableEq, Repr

/-- The `minThresholds` table of `calculateSimilarityHybrid`
(lines 148–158): a fixed per-indicator floor, 1% of the historical range. -/
def minThresholds : Ind → ℚ
  | .us10y => 16 / 100
  | .dxy => 1
  | .spread => 25
  | .m2 => 100
  | .oil => 3 / 2
  | .ratioK => 5 / 100
  | .pmi => 15 / 100
  | .vix => 9 / 10
  | .btc => 1000

/-- `calculateDynamicRanges` (lines 110–128): per indicator key,
`Math.max(...values) - Math.min(...values)` over the parsed hashes of all
cached predictions.  The function is only ever applied to a nonempty
list; the unreachable empty case is mapped to 0. -/
def calculateDynamicRanges (cands : List (Ind → ℚ)) : Ind → ℚ := fun k =>
  match cands.map (fun v => v k) with
  | [] => 0
  | v :: vs => vs.foldl max v - vs.foldl min v

/-- The per-key `effectiveRange` of lines 166–169:
`Math.max(dynamicRanges[key] || 0, minThresholds[key])` (the `|| 0`
coalescing is immaterial: a present range already equals the max-min of a
nonempty value list, and falsy `0` maps to `0`). -/
def effectiveRange (dyn : Ind → ℚ) (k : Ind) : ℚ := max (dyn k) (minThresholds k)

/-- The `sumSquaredDiffs` accumulated by the loop of
`calculateSimilarityHybrid` (lines 160–173):
`diff = Math.abs(current[key] - cached[key]) / effectiveRange`, summed as
`diff * diff` over the nine keys. -/
def sumSquaredDiffs (current cached : Ind → ℚ) (dyn : Ind → ℚ) : ℚ :=
  (indKeys.map fun k => (|current k - cached k| / effectiveRange dyn k) ^ 2).sum

/-- The `distance` of line 176: `Math.sqrt(sumSquaredDiffs / keys.length)`. -/
noncomputable def distanceHybrid (current cached dyn : Ind → ℚ) : ℝ :=
  Real.sqrt ((sumSquaredDiffs current cached dyn / indKeys.length : ℚ) : ℝ)

/-- `calculateSimilarityHybrid` (lines 139–181) after the parse steps:
similarity `Math.exp(-distance)` between the parsed fingerprint of the
quantized current data and the parsed candidate fingerprint.  The caller
supplies `current = parseHash (hashData currentData)` exactly as line 144
computes it. -/
noncomputable def calculateSimilarityHybrid (current cached dyn : Ind → ℚ) : ℝ :=
  Real.exp (-distanceHybrid current cached dyn)

/-- `calculateRecencyScore` (lines 187–193): linear decay from 1 at age 0
to 0 at 24 hours, clamped below at 0; times in milliseconds. -/
def calculateRecencyScore (now ts : ℚ) : ℚ :=
  max 0 (1 - (now - ts) / (1000 * 60 * 60) / 24)

/-- The weighted `finalScore` of line 243:
`similarityScore * 0.9 + recencyScore * 0.1`. -/
noncomputable def finalScore (now : ℚ) (current dyn : Ind → ℚ)
    (c : CachedPrediction) : ℝ :=
  calculateSimilarityHybrid current (parseHash c.dataHash) dyn * (9 / 10)
    + (calculateRecencyScore now c.timestamp : ℚ) * (1 / 10)

/-- The `reduce` of lines 255–257: keep the previous element unless the
current one scores strictly higher. -/
noncomputable def pickBest (h : CachedPrediction × ℝ)
    (t : List (CachedPrediction × ℝ)) : CachedPrediction × ℝ :=
  t.foldl (fun prev curr => if prev.2 < curr.2 then curr else prev) h

/-- `getBestMatchingPrediction` (lines 200–275), applied to the list of
fallback records the store enumeration yields: `null` when there are no
candidates; otherwise quantize-and-parse the current snapshot (a thrown
error is caught by the surrounding `try` and mapped to `null`), score
every candidate (dynamic ranges computed once over all candidates) and
return the prediction of the reduce-selected best candidate. -/
noncomputable def getBestMatchingPrediction (now : ℚ)
    (entries : List CachedPrediction) (currentData : DashboardData) :
    Option MarketPrediction :=
  match entries with
  | [] => none
  | e :: rest =>
    match hashData currentData with
    | .error _ => none
    | .ok fp =>
      let current := parseHash fp
      let dyn := calculateDynamicRanges ((e :: rest).map fun c => parseHash c.dataHash)
      let score := fun c => finalScore now current dyn c
      some (pickBest (e, score e) (rest.map fun c => (c, score c))).1.prediction

/-- C9: applied to an empty candidate list, the fallback lookup returns
`none` for every current snapshot and any clock value; the empty branch
performs no arithmetic at all, hence no division by zero. -/
theorem getBestMatchingPrediction_empty (now : ℚ) (d : DashboardData) :
    getBestMatchingPrediction now [] d = none := rfl

/-- Similarity as the claim's formula states it (spec §4.5 steps 3–6):
`exp(-sqrt((1/N) * Σ (|currentSnapshot[id] - candidateValue[id]| /
effectiveRange[id])^2))`, where the effective range per id is
`max(max - min of the candidates' parsed values, minimumThreshold[id])`
over the candidates only.  `currentSnapshot` here is the snapshot vector
the claim names — the raw current values, not their quantization. -/
noncomputable def specSimilarity (currentSnapshot candidate : Ind → ℚ)
    (cands : List (Ind → ℚ)) : ℝ :=
  Real.exp (-Real.sqrt ((1 / (indKeys.length : ℝ)) *
    ((sumSquaredDiffs currentSnapshot candidate (calculateDynamicRanges cands) : ℚ) : ℝ)))

/-- Comparing a parsed-value vector with itself contributes no squared
difference for any key. -/
theorem sumSquaredDiffs_self (c dyn : Ind → ℚ) : sumSquaredDiffs c c dyn = 0 := by
  simp [sumSquaredDiffs, indKeys]

/-- The distance of a candidate is a square root, hence nonnegative. -/
theorem distanceHybrid_nonneg (current cached dyn : Ind → ℚ) :
    0 ≤ distanceHybrid current cached dyn := Real.sqrt_nonneg _

/-- C3 (amended): for every nonempty candidate list, the similarity the
code computes for a candidate equals the claim's formula evaluated on the
QUANTIZED current snapshot `parseHash (hashData currentData)` (line 144
quantizes the current snapshot before comparing); the similarity lies in
`(0, 1]` and equals 1 exactly when the distance is 0. -/
theorem similarity_matches_spec_formula (fp : Fingerprint) (cached : Ind → ℚ)
    (cands : List (Ind → ℚ)) (_hne : cands ≠ []) :
    calculateSimilarityHybrid (parseHash fp) cached (calculateDynamicRanges cands)
      = specSimilarity (parseHash fp) cached cands ∧
    0 < calculateSimilarityHybrid (parseHash fp) cached (calculateDynamicRanges cands) ∧
    calculateSimilarityHybrid (parseHash fp) cached (calculateDynamicRanges cands) ≤ 1 ∧
    (calculateSimilarityHybrid (parseHash fp) cached (calculateDynamicRanges cands) = 1 ↔
      distanceHybrid (parseHash fp) cached (calculateDynamicRanges cands) = 0) := by
  refine ⟨?_, Real.exp_pos _, ?_, ?_⟩
  · unfold calculateSimilarityHybrid specSimilarity distanceHybrid
    congr 2
    push_cast
    ring_nf
  · calc calculateSimilarityHybrid (parseHash fp) cached (calculateDynamicRanges cands)
        ≤ Real.exp 0 :=
          Real.exp_le_exp.mpr (neg_nonpos.mpr (distanceHybrid_nonneg _ _ _))
    _ = 1 := Real.exp_zero
  · unfold calculateSimilarityHybrid
    rw [← Real.exp_zero, Real.exp_eq_exp, neg_eq_zero]

/-- C3 witness for the amended theorem: a concrete singleton candidate
list. -/
theorem similarity_matches_spec_formula_witness :
    ([parseHash (fpOf 4 104 310 21000 80 4 48 1 91000)] : List (Ind → ℚ)) ≠ [] ∧
    (calculateSimilarityHybrid (parseHash (fpOf 4 104 310 21000 80 4 48 1 91000))
        (parseHash (fpOf 4 104 310 21000 80 4 48 1 91000))
        (calculateDynamicRanges [parseHash (fpOf 4 104 310 21000 80 4 48 1 91000)])
      = specSimilarity (parseHash (fpOf 4 104 310 21000 80 4 48 1 91000))
          (parseHash (fpOf 4 104 310 21000 80 4 48 1 91000))
          [parseHash (fpOf 4 104 310 21000 80 4 48 1 91000)] ∧
    0 < calculateSimilarityHybrid (parseHash (fpOf 4 104 310 21000 80 4 48 1 91000))
        (parseHash (fpOf 4 104 310 21000 80 4 48 1 91000))
        (calculateDynamicRanges [parseHash (fpOf 4 104 310 21000 80 4 48 1 91000)]) ∧
    calculateSimilarityHybrid (parseHash (fpOf 4 104 310 21000 80 4 48 1 91000))
        (parseHash (fpOf 4 104 310 21000 80 4 48 1 91000))
        (calculateDynamicRanges [parseHash (fpOf 4 104 310 21000 80 4 48 1 91000)]) ≤ 1 ∧
    (calculateSimilarityHybrid (parseHash (fpOf 4 104 310 21000 80 4 48 1 91000))
        (parseHash (fpOf 4 104 310 21000 80 4 48 1 91000))
        (calculateDynamicRanges [parseHash (fpOf 4 104 310 21000 80 4 48 1 91000)]) = 1 ↔
      distanceHybrid (parseHash (fpOf 4 104 310 21000 80 4 48 1 91000))
        (parseHash (fpOf 4 104 310 21000 80 4 48 1 91000))
        (calculateDynamicRanges [parseHash (fpOf 4 104 310 21000 80 4 48 1 91000)]) = 0)) :=
  ⟨by simp,
    similarity_matches_spec_formula (fpOf 4 104 310 21000 80 4 48 1 91000)
      (parseHash (fpOf 4 104 310 21000 80 4 48 1 91000))
      [parseHash (fpOf 4 104 310 21000 80 4 48 1 91000)] (by simp)⟩

/-- A concrete current snapshot whose `us10y` value `4.523` is off the
0.01 quantization grid; every other indicator sits on its grid. -/
def demoData : DashboardData :=
  mkData (4523 / 1000) 105 310 21000 80 (452 / 100) 48 1 91000

/-- The raw (unquantized) indicator vector of `demoData`. -/
def demoRaw : Ind → ℚ := fun k =>
  match k with
  | .us10y => 4523 / 1000
  | .dxy => 105
  | .spread => 310
  | .m2 => 21000
  | .oil => 80
  | .ratioK => 452 / 100
  | .pmi => 48
  | .vix => 1
  | .btc => 91000

/-- The fingerprint `hashData` produces for `demoData`. -/
def demoFp : Fingerprint :=
  fpOf (4523 / 1000) 105 310 21000 80 (452 / 100) 48 1 91000

/-- C3 counterexample: for the current snapshot `demoData`
(`us10y = 4.523`) and the single candidate whose stored fingerprint is
exactly the quantized current snapshot, the code computes similarity 1 —
it quantizes the current snapshot before comparing — while the claim's
formula on the raw current snapshot values gives `exp(-1/160) ≠ 1`; so the
similarity the code computes does not equal the claim's formula. -/
theorem similarity_spec_formula_counterexample :
    hashData demoData = Except.ok demoFp ∧
    calculateSimilarityHybrid (parseHash demoFp) (parseHash demoFp)
      (calculateDynamicRanges [parseHash demoFp]) = 1 ∧
    specSimilarity demoRaw (parseHash demoFp) [parseHash demoFp]
      ≠ calculateSimilarityHybrid (parseHash demoFp) (parseHash demoFp)
          (calculateDynamicRanges [parseHash demoFp]) := by
  have hcode : calculateSimilarityHybrid (parseHash demoFp) (parseHash demoFp)
      (calculateDynamicRanges [parseHash demoFp]) = 1 := by
    unfold calculateSimilarityHybrid distanceHybrid
    rw [sumSquaredDiffs_self]
    norm_num
  have hs : sumSquaredDiffs demoRaw (parseHash demoFp)
      (calculateDynamicRanges [parseHash demoFp]) = 9 / 25600 := by
    norm_num [sumSquaredDiffs, indKeys, effectiveRange, calculateDynamicRanges,
      minThresholds, parseHash, Fingerprint.get, demoFp, fpOf, FixedDec.toQ,
      toFixed, roundHalfUp_eq_floor, demoRaw]
    rw [show |(3 : ℚ) / 1000| = 3 / 1000 from abs_of_nonneg (by norm_num)]
    norm_num
  refine ⟨rfl, hcode, ?_⟩
  rw [hcode]
  unfold specSimilarity
  rw [hs]
  have hsq : Real.sqrt ((1 / (indKeys.length : ℝ)) * ((9 / 25600 : ℚ) : ℝ))
      = 1 / 160 := by
    rw [show (1 / (indKeys.length : ℝ)) * ((9 / 25600 : ℚ) : ℝ) = (1 / 160) ^ 2 by
      norm_num [indKeys]]
    exact Real.sqrt_sq (by norm_num)
  rw [hsq]
  rw [← Real.exp_zero]
  intro h
  have := Real.exp_eq_exp.mp h
  norm_num at this

/-- One step of the source's `reduce`. -/
theorem pickBest_cons (h a : CachedPrediction × ℝ) (t : List (CachedPrediction × ℝ)) :
    pickBest h (a :: t) = pickBest (if h.2 < a.2 then a else h) t := rfl

/-- The reduce-selected element is one of the scored candidates. -/
theorem pickBest_mem (t : List (CachedPrediction × ℝ)) :
    ∀ h, pickBest h t ∈ h :: t := by
  induction t with
  | nil => intro h; simp [pickBest]
  | cons a t ih =>
    intro h
    rw [pickBest_cons]
    rcases List.mem_cons.mp (ih (if h.2 < a.2 then a else h)) with heq | hmem
    · rw [heq]
      split
      · exact List.mem_cons_of_mem _ (List.mem_cons_self _ _)
      · exact List.mem_cons_self _ _
    · exact List.mem_cons_of_mem _ (List.mem_cons_of_mem _ hmem)

/-- The reduce-selected element scores at least as high as every scored
candidate. -/
theorem pickBest_score_le (t : List (CachedPrediction × ℝ)) :
    ∀ h x, x ∈ h :: t → x.2 ≤ (pickBest h t).2 := by
  induction t with
  | nil =>
    intro h x hx
    rcases List.mem_cons.mp hx with rfl | hx
    · exact le_of_eq rfl
    · cases hx
  | cons a t ih =>
    intro h x hx
    rw [pickBest_cons]
    have hh : h.2 ≤ (if h.2 < a.2 then a else h).2 := by
      split
      · exact le_of_lt (by assumption)
      · exact le_refl _
    have ha : a.2 ≤ (if h.2 < a.2 then a else h).2 := by
      split
      · exact le_refl _
      · exact le_of_not_lt (by assumption)
    have hhead := ih (if h.2 < a.2 then a else h) _ (List.mem_cons_self _ _)
    rcases List.mem_cons.mp hx with rfl | hx2
    · exact le_trans hh hhead
    rcases List.mem_cons.mp hx2 with rfl | hx3
    · exact le_trans ha hhead
    · exact ih _ x (List.mem_cons_of_mem _ hx3)

/-- The distance of a candidate identical to the current vector is 0. -/
theorem distanceHybrid_self (c dyn : Ind → ℚ) : distanceHybrid c c dyn = 0 := by
  unfold distanceHybrid
  rw [sumSquaredDiffs_self]
  norm_num

/-- The similarity of a candidate identical to the current vector is 1. -/
theorem similarity_self (c dyn : Ind → ℚ) : calculateSimilarityHybrid c c dyn = 1 := by
  unfold calculateSimilarityHybrid
  rw [distanceHybrid_self]
  norm_num

/-- A candidate at nonzero distance has similarity strictly below 1. -/
theorem similarity_lt_one_of_distance_ne_zero (current cached dyn : Ind → ℚ)
    (h : distanceHybrid current cached dyn ≠ 0) :
    calculateSimilarityHybrid current cached dyn < 1 := by
  unfold calculateSimilarityHybrid
  have hpos : 0 < distanceHybrid current cached dyn :=
    lt_of_le_of_ne (distanceHybrid_nonneg _ _ _) (Ne.symm h)
  calc Real.exp (-distanceHybrid current cached dyn) < Real.exp 0 :=
        Real.exp_lt_exp.mpr (by linarith)
  _ = 1 := Real.exp_zero

/-- C1 (amended): if the quantized current snapshot's parsed values
exactly equal one candidate's parsed fingerprint values, that candidate's
distance is 0 and its similarity is 1, and `getBestMatchingPrediction`
selects it over any other candidate with nonzero distance whose recency
score does not exceed the identical candidate's recency score. -/
theorem identity_candidate_selected
    (now : ℚ) (entries : List CachedPrediction) (d : DashboardData)
    (fp : Fingerprint) (i : CachedPrediction)
    (hfp : hashData d = Except.ok fp)
    (hmem : i ∈ entries)
    (hid : parseHash i.dataHash = parseHash fp)
    (hothers : ∀ j ∈ entries, j ≠ i →
      distanceHybrid (parseHash fp) (parseHash j.dataHash)
        (calculateDynamicRanges (entries.map fun c => parseHash c.dataHash)) ≠ 0 ∧
      calculateRecencyScore now j.timestamp ≤ calculateRecencyScore now i.timestamp) :
    distanceHybrid (parseHash fp) (parseHash i.dataHash)
      (calculateDynamicRanges (entries.map fun c => parseHash c.dataHash)) = 0 ∧
    calculateSimilarityHybrid (parseHash fp) (parseHash i.dataHash)
      (calculateDynamicRanges (entries.map fun c => parseHash c.dataHash)) = 1 ∧
    getBestMatchingPrediction now entries d = some i.prediction := by
  obtain ⟨e, rest, rfl⟩ : ∃ e rest, entries = e :: rest := by
    cases entries with
    | nil => cases hmem
    | cons e rest => exact ⟨e, rest, rfl⟩
  refine ⟨by rw [hid]; exact distanceHybrid_self _ _, by rw [hid]; exact similarity_self _ _, ?_⟩
  simp only [getBestMatchingPrediction, hfp]
  have hscore_i :
      finalScore now (parseHash fp)
        (calculateDynamicRanges ((e :: rest).map fun c => parseHash c.dataHash)) i
      = 9 / 10 + (calculateRecencyScore now i.timestamp : ℝ) * (1 / 10) := by
    unfold finalScore
    rw [hid, similarity_self]
    ring
  have hscore_lt : ∀ j ∈ e :: rest, j ≠ i →
      finalScore now (parseHash fp)
        (calculateDynamicRanges ((e :: rest).map fun c => parseHash c.dataHash)) j
      < finalScore now (parseHash fp)
        (calculateDynamicRanges ((e :: rest).map fun c => parseHash c.dataHash)) i := by
    intro j hj hji
    obtain ⟨hdj, hrj⟩ := hothers j hj hji
    have hsim := similarity_lt_one_of_distance_ne_zero _ _ _ hdj
    have hrj' : (calculateRecencyScore now j.timestamp : ℝ)
        ≤ (calculateRecencyScore now i.timestamp : ℝ) := by exact_mod_cast hrj
    rw [hscore_i]
    unfold finalScore
    nlinarith
  set F : CachedPrediction → CachedPrediction × ℝ := fun c =>
    (c, finalScore now (parseHash fp)
      (calculateDynamicRanges ((e :: rest).map fun c => parseHash c.dataHash)) c) with hF
  have hbmem : pickBest (F e) (rest.map F) ∈ (e :: rest).map F := by
    simpa using pickBest_mem (rest.map F) (F e)
  obtain ⟨c, hc, hbc⟩ := List.mem_map.mp hbmem
  have hige : (F i).2 ≤ (pickBest (F e) (rest.map F)).2 := by
    apply pickBest_score_le
    simpa using List.mem_map_of_mem F hmem
  by_cases hci : c = i
  · subst hci
    simp only [← hbc, hF]
  · exfalso
    rw [← hbc] at hige
    exact absurd hige (not_le.mpr (hscore_lt c hc hci))

/-- A current snapshot lying exactly on every quantization grid
(`us10y = 4.50`). -/
def curData : DashboardData := mkData (45 / 10) 105 310 21000 80 (452 / 100) 48 1 91000

/-- The fingerprint of `curData`. -/
def fpA : Fingerprint := fpOf (45 / 10) 105 310 21000 80 (452 / 100) 48 1 91000

/-- A fingerprint differing from `fpA` only in `us10y` (4.51 instead of
4.50). -/
def fpB : Fingerprint := fpOf (451 / 100) 105 310 21000 80 (452 / 100) 48 1 91000

/-- The dynamic ranges computed over the candidate pair `fpA`, `fpB`. -/
def dynAB : Ind → ℚ := calculateDynamicRanges [parseHash fpA, parseHash fpB]

/-- A candidate identical to `curData` but 24 hours old (recency 0). -/
def entryIdentOld : CachedPrediction := ⟨⟨1⟩, 0, fpA⟩

/-- A candidate 0.01 away in `us10y` but written just now (recency 1). -/
def entryNearFresh : CachedPrediction := ⟨⟨2⟩, 86400000, fpB⟩

/-- A candidate identical to `curData` and written just now. -/
def entryIdentFresh : CachedPrediction := ⟨⟨3⟩, 86400000, fpA⟩

/-- A candidate 0.01 away in `us10y`, one hour old (recency 23/24). -/
def entryNearOld : CachedPrediction := ⟨⟨4⟩, 82800000, fpB⟩

/-- Concrete squared-difference sum between `fpA` and `fpB`: only `us10y`
differs, by 0.01, against effective range 0.16, so `(1/16)^2 = 1/256`. -/
theorem sumSq_AB : sumSquaredDiffs (parseHash fpA) (parseHash fpB) dynAB = 1 / 256 := by
  norm_num [sumSquaredDiffs, indKeys, effectiveRange, dynAB, calculateDynamicRanges,
    minThresholds, parseHash, Fingerprint.get, fpA, fpB, fpOf, FixedDec.toQ,
    toFixed, roundHalfUp_eq_floor]
  rw [show |(1 : ℚ) / 100| = 1 / 100 from abs_of_nonneg (by norm_num)]
  norm_num

/-- Concrete distance between `fpA` and `fpB`: `sqrt((1/256)/9) = 1/48`. -/
theorem dist_AB : distanceHybrid (parseHash fpA) (parseHash fpB) dynAB = 1 / 48 := by
  unfold distanceHybrid
  rw [sumSq_AB]
  rw [show ((1 / 256 / (indKeys.length : ℚ) : ℚ) : ℝ) = (1 / 48) ^ 2 by
    push_cast [indKeys]
    norm_num]
  exact Real.sqrt_sq (by norm_num)

/-- The concrete distance between `fpA` and `fpB` is nonzero. -/
theorem dist_AB_ne : distanceHybrid (parseHash fpA) (parseHash fpB) dynAB ≠ 0 := by
  rw [dist_AB]
  norm_num

/-- C1 counterexample: with current snapshot `curData`, the candidate
`entryIdentOld` has distance 0 and similarity 1 but recency score 0 (24
hours old), while `entryNearFresh` is at nonzero distance `1/48` with
recency 1; the code's 90/10 weighting gives `entryNearFresh` the higher
final score (`0.9·exp(-1/48) + 0.1 > 0.9`), so the identical candidate is
NOT selected — the claim's "regardless of the candidates' recency scores"
fails. -/
theorem identity_candidate_counterexample :
    hashData curData = Except.ok fpA ∧
    parseHash entryIdentOld.dataHash = parseHash fpA ∧
    distanceHybrid (parseHash fpA) (parseHash entryIdentOld.dataHash) dynAB = 0 ∧
    calculateSimilarityHybrid (parseHash fpA) (parseHash entryIdentOld.dataHash) dynAB = 1 ∧
    distanceHybrid (parseHash fpA) (parseHash entryNearFresh.dataHash) dynAB ≠ 0 ∧
    getBestMatchingPrediction 86400000 [entryIdentOld, entryNearFresh] curData
      = some entryNearFresh.prediction ∧
    entryNearFresh.prediction ≠ entryIdentOld.prediction := by
  have hA : finalScore 86400000 (parseHash fpA) dynAB entryIdentOld = 9 / 10 := by
    unfold finalScore
    rw [show parseHash entryIdentOld.dataHash = parseHash fpA from rfl, similarity_self]
    rw [show calculateRecencyScore 86400000 entryIdentOld.timestamp = 0 from by
      norm_num [calculateRecencyScore, entryIdentOld]]
    push_cast
    ring
  have hB : (157 / 160 : ℝ) ≤ finalScore 86400000 (parseHash fpA) dynAB entryNearFresh := by
    unfold finalScore
    rw [show calculateRecencyScore 86400000 entryNearFresh.timestamp = 1 from by
      norm_num [calculateRecencyScore, entryNearFresh]]
    have hsim : (47 / 48 : ℝ)
        ≤ calculateSimilarityHybrid (parseHash fpA) (parseHash entryNearFresh.dataHash) dynAB := by
      unfold calculateSimilarityHybrid
      rw [show parseHash entryNearFresh.dataHash = parseHash fpB from rfl, dist_AB]
      have h1 := Real.add_one_le_exp (-(1 / 48 : ℝ))
      linarith
    push_cast
    linarith
  have hlt : finalScore 86400000 (parseHash fpA) dynAB entryIdentOld
      < finalScore 86400000 (parseHash fpA) dynAB entryNearFresh := by
    rw [hA]
    linarith
  refine ⟨rfl, rfl, distanceHybrid_self _ _, similarity_self _ _, dist_AB_ne, ?_, by decide⟩
  simp only [getBestMatchingPrediction]
  rw [show hashData curData = Except.ok fpA from rfl]
  simp only [List.map_cons, List.map_nil, pickBest, List.foldl_cons, List.foldl_nil]
  split_ifs with h
  · rfl
  · exact absurd hlt h

/-- C1 witness for the amended theorem: with the identical candidate
`entryIdentFresh` at least as recent as the competing `entryNearOld`, the
identical candidate is selected. -/
theorem identity_candidate_selected_witness :
    distanceHybrid (parseHash fpA) (parseHash entryIdentFresh.dataHash)
      (calculateDynamicRanges
        (([entryIdentFresh, entryNearOld] : List CachedPrediction).map
          fun c => parseHash c.dataHash)) = 0 ∧
    calculateSimilarityHybrid (parseHash fpA) (parseHash entryIdentFresh.dataHash)
      (calculateDynamicRanges
        (([entryIdentFresh, entryNearOld] : List CachedPrediction).map
          fun c => parseHash c.dataHash)) = 1 ∧
    getBestMatchingPrediction 86400000 [entryIdentFresh, entryNearOld] curData
      = some entryIdentFresh.prediction :=
  identity_candidate_selected 86400000 [entryIdentFresh, entryNearOld] curData fpA
    entryIdentFresh rfl (by simp) rfl
    (by
      intro j hj hji
      rcases List.mem_cons.mp hj with rfl | hj2
      · exact absurd rfl hji
      rcases List.mem_cons.mp hj2 with rfl | hj3
      · refine ⟨dist_AB_ne, ?_⟩
        norm_num [calculateRecencyScore, entryNearOld, entryIdentFresh]
      · cases hj3)

/-- The Redis keyspace as the cache uses it: the exact-match table (one
entry per `gemini:prediction:<hash>` key) and the fallback log (one entry
per `gemini:fallback:<timestamp>` key, the embedded timestamp being the
key). -/
structure RedisState where
  exact : List (Fingerprint × CachedPrediction)
  fallback : List (ℚ × CachedPrediction)
  deriving DecidableEq, Repr

/-- A store with no keys. -/
def emptyStore : RedisState := ⟨[], []⟩

/-- Which store operations of one `setPrediction` call throw (injected
store faults modelling Redis request failures). -/
structure FailSpec where
  failSetExact : Bool
  failSetFallback : Bool
  failCleanup : Bool
  deriving DecidableEq, Repr

/-- No store operation fails. -/
def noFail : FailSpec := ⟨false, false, false⟩

/-- `cleanupFallbackKeys` (lines 337–361): enumerate the fallback keys;
with at most 10 of them do nothing; otherwise sort the keys ascending by
embedded timestamp and delete the oldest `count - 10`.  Errors of its own
store calls (modelled by `failCleanup`) are caught and swallowed, leaving
the store as it was. -/
def cleanupFallbackKeys (fs : FailSpec) (st : RedisState) : RedisState :=
  if fs.failCleanup then st
  else
    let keys := st.fallback.map Prod.fst
    if keys.length ≤ 10 then st
    else
      let sortedKeys := keys.mergeSort fun a b => decide (a ≤ b)
      let toDelete := sortedKeys.take (keys.length - 10)
      { st with fallback := st.fallback.filter fun e => decide (e.1 ∉ toDelete) }

/-- `setPrediction` (lines 58–86): compute the fingerprint — outside the
`try`, so a thrown `TypeError` propagates — then inside `try`/`catch`
write the exact-match key, write the fallback key `Date.now()` and run
the cleanup; any store error is caught, logged and swallowed, so the call
never signals failure to its caller.  A write that throws leaves the
store unchanged from that point on. -/
def setPrediction (fs : FailSpec) (now : ℚ) (data : DashboardData)
    (p : MarketPrediction) (st : RedisState) : Except JsErr RedisState :=
  match hashData data with
  | .error e => .error e
  | .ok fp =>
    let cached : CachedPrediction := ⟨p, now, fp⟩
    .ok <|
      if fs.failSetExact then st
      else
        let st1 : RedisState :=
          { st with exact := (fp, cached) :: st.exact.filter fun e => decide (e.1 ≠ fp) }
        if fs.failSetFallback then st1
        else
          let st2 : RedisState :=
            { st1 with
              fallback := (now, cached) :: st1.fallback.filter fun e => decide (e.1 ≠ now) }
          cleanupFallbackKeys fs st2

/-- The store read of `getPrediction` (lines 34–53): compute the hash —
outside the internal `try`, so a thrown `TypeError` propagates to the
route — then look up the exact key; a miss (or a swallowed read error)
returns `null`. -/
def getPrediction (st : RedisState) (data : DashboardData) :
    Except JsErr (Option MarketPrediction) :=
  match hashData data with
  | .error e => .error e
  | .ok fp =>
    match st.exact.find? fun e => decide (e.1 = fp) with
    | none => .ok none
    | some e => .ok (some e.2.prediction)

/-- On a fallback log whose entries are strictly descending by key, the
cleanup keeps exactly the first (newest) 10 entries. -/
theorem cleanupFallbackKeys_desc (st : RedisState)
    (hdesc : List.Pairwise (fun a b : ℚ × CachedPrediction => b.1 < a.1) st.fallback) :
    cleanupFallbackKeys noFail st = { st with fallback := st.fallback.take 10 } := by
  unfold cleanupFallbackKeys noFail
  simp only [Bool.false_eq_true, if_false]
  by_cases hlen : (st.fallback.map Prod.fst).length ≤ 10
  · rw [if_pos hlen]
    have htake : st.fallback.take 10 = st.fallback :=
      List.take_of_length_le (by simpa using hlen)
    cases st
    simp [htake]
  · rw [if_neg hlen]
    have hkdesc : List.Pairwise (fun a b : ℚ => b < a) (st.fallback.map Prod.fst) :=
      List.pairwise_map.mpr hdesc
    have hsorted_ms :
        List.Pairwise (fun a b : ℚ => a ≤ b)
          ((st.fallback.map Prod.fst).mergeSort fun a b => decide (a ≤ b)) := by
      have := @List.sorted_mergeSort ℚ (fun a b : ℚ => decide (a ≤ b))
        (fun a b c hab hbc => by
          simp only [decide_eq_true_eq] at *
          exact le_trans hab hbc)
        (fun a b => by
          simp only [Bool.or_eq_true, decide_eq_true_eq]
          exact le_total a b)
        (st.fallback.map Prod.fst)
      exact this.imp fun h => of_decide_eq_true h
    have hsorted_rev :
        List.Pairwise (fun a b : ℚ => a ≤ b) (st.fallback.map Prod.fst).reverse := by
      rw [List.pairwise_reverse]
      exact hkdesc.imp le_of_lt
    have hms : (st.fallback.map Prod.fst).mergeSort (fun a b => decide (a ≤ b))
        = (st.fallback.map Prod.fst).reverse := by
      refine List.eq_of_perm_of_sorted ?_ hsorted_ms hsorted_rev
      exact (List.mergeSort_perm _ _).trans (List.reverse_perm _).symm
    rw [hms]
    have hrevtake :
        (st.fallback.map Prod.fst).reverse.take ((st.fallback.map Prod.fst).length - 10)
          = ((st.fallback.map Prod.fst).drop 10).reverse := by
      have hsplit : (st.fallback.map Prod.fst).reverse
          = ((st.fallback.map Prod.fst).drop 10).reverse
            ++ ((st.fallback.map Prod.fst).take 10).reverse := by
        rw [← List.reverse_append, List.take_append_drop]
      rw [hsplit]
      have hlen' : ((st.fallback.map Prod.fst).drop 10).reverse.length
          = (st.fallback.map Prod.fst).length - 10 := by
        simp
      rw [← hlen', List.take_left]
    rw [hrevtake]
    have hfil : (st.fallback.filter fun e =>
        decide (e.1 ∉ ((st.fallback.map Prod.fst).drop 10).reverse))
        = st.fallback.take 10 := by
      have hmapdrop : (st.fallback.map Prod.fst).drop 10
          = (st.fallback.drop 10).map Prod.fst := by
        rw [List.map_drop]
      have hpair := (@List.pairwise_append _ _ (st.fallback.take 10)
        (st.fallback.drop 10)).mp (by rw [List.take_append_drop]; exact hdesc)
      have h1 : ∀ a ∈ st.fallback.take 10,
          (decide (a.1 ∉ ((st.fallback.map Prod.fst).drop 10).reverse)) = true := by
        intro a ha
        simp only [decide_eq_true_eq, List.mem_reverse, hmapdrop, List.mem_map]
        rintro ⟨b, hb, hba⟩
        have hba' := hpair.2.2 a ha b hb
        rw [hba] at hba'
        exact lt_irrefl _ hba'
      have h2 : ∀ a ∈ st.fallback.drop 10,
          ¬(decide (a.1 ∉ ((st.fallback.map Prod.fst).drop 10).reverse)) = true := by
        intro a ha
        simp only [decide_eq_true_eq, List.mem_reverse, hmapdrop, List.mem_map, not_not]
        exact ⟨a, ha, rfl⟩
      calc st.fallback.filter (fun e =>
              decide (e.1 ∉ ((st.fallback.map Prod.fst).drop 10).reverse))
          = (st.fallback.take 10 ++ st.fallback.drop 10).filter (fun e =>
              decide (e.1 ∉ ((st.fallback.map Prod.fst).drop 10).reverse)) := by
            rw [List.take_append_drop]
        _ = (st.fallback.take 10).filter (fun e =>
              decide (e.1 ∉ ((st.fallback.map Prod.fst).drop 10).reverse))
            ++ (st.fallback.drop 10).filter (fun e =>
              decide (e.1 ∉ ((st.fallback.map Prod.fst).drop 10).reverse)) :=
            List.filter_append _ _
        _ = st.fallback.take 10 ++ [] := by
            rw [List.filter_eq_self.mpr h1, List.filter_eq_nil_iff.mpr h2]
        _ = st.fallback.take 10 := List.append_nil _
    rw [hfil]

/-- Taking `n` of an append whose right part is already truncated at `n`
equals taking `n` of the untruncated append. -/
theorem take_append_take {α : Type} (n : ℕ) (l m : List α) :
    (l ++ m.take n).take n = (l ++ m).take n := by
  rw [List.take_append_eq_append_take, List.take_append_eq_append_take, List.take_take]
  congr 1
  rw [min_eq_left (Nat.sub_le n l.length)]

/-- One successful `setPrediction` call on a store whose fallback log is
strictly descending by key and older than the write: the exact key is
overwritten, the new fallback entry is prepended, and the cleanup trims
the log to its newest 10 entries. -/
theorem setPrediction_step (t : ℚ) (d : DashboardData) (p : MarketPrediction)
    (fp : Fingerprint) (st : RedisState)
    (hfp : hashData d = Except.ok fp)
    (hdesc : List.Pairwise (fun a b : ℚ × CachedPrediction => b.1 < a.1) st.fallback)
    (hgt : ∀ e ∈ st.fallback, e.1 < t) :
    setPrediction noFail t d p st = Except.ok
      { exact := (fp, ⟨p, t, fp⟩) :: st.exact.filter fun e => decide (e.1 ≠ fp)
        fallback := ((t, ⟨p, t, fp⟩) :: st.fallback).take 10 } := by
  unfold setPrediction
  rw [hfp]
  simp only [show noFail.failSetExact = false from rfl,
    show noFail.failSetFallback = false from rfl, Bool.false_eq_true, if_false]
  have hfb : st.fallback.filter (fun e => decide (e.1 ≠ t)) = st.fallback := by
    rw [List.filter_eq_self]
    intro a ha
    simp only [decide_eq_true_eq]
    exact ne_of_lt (hgt a ha)
  have hdesc_cons : List.Pairwise (fun a b : ℚ × CachedPrediction => b.1 < a.1)
      ((t, (⟨p, t, fp⟩ : CachedPrediction)) :: st.fallback) :=
    List.Pairwise.cons (fun b hb => hgt b hb) hdesc
  congr 1
  rw [hfb]
  rw [cleanupFallbackKeys_desc _ hdesc_cons]

/-- A sequence of `setPrediction` calls (each with its write timestamp,
snapshot and freshly generated prediction), applied left to right. -/
def runSets : List (ℚ × DashboardData × MarketPrediction) → RedisState →
    Except JsErr RedisState
  | [], st => .ok st
  | (t, d, p) :: rest, st =>
    match setPrediction noFail t d p st with
    | .error e => .error e
    | .ok st1 => runSets rest st1

/-- Invariant of repeated `setPrediction` calls: starting from a
descending fallback log older than every pending write, with strictly
increasing write timestamps, the run succeeds and the final fallback keys
are the newest 10 of (written timestamps, newest first) ++ (old keys). -/
theorem runSets_fallback_keys (inputs : List (ℚ × DashboardData × MarketPrediction)) :
    ∀ st : RedisState,
      List.Pairwise (fun a b : ℚ × CachedPrediction => b.1 < a.1) st.fallback →
      st.fallback.length ≤ 10 →
      (∀ e ∈ st.fallback, ∀ i ∈ inputs, e.1 < i.1) →
      List.Pairwise (· < ·) (inputs.map fun i => i.1) →
      (∀ i ∈ inputs, ∃ fp, hashData i.2.1 = Except.ok fp) →
      ∃ st', runSets inputs st = Except.ok st' ∧
        st'.fallback.map Prod.fst
          = ((inputs.map fun i => i.1).reverse ++ st.fallback.map Prod.fst).take 10 ∧
        List.Pairwise (fun a b : ℚ × CachedPrediction => b.1 < a.1) st'.fallback := by
  induction inputs with
  | nil =>
    intro st hdesc hlen _ _ _
    refine ⟨st, rfl, ?_, hdesc⟩
    rw [List.map_nil, List.reverse_nil, List.nil_append,
      List.take_of_length_le (by simpa using hlen)]
  | cons i rest ih =>
    obtain ⟨t, d, p⟩ := i
    intro st hdesc hlen hgt hinc hok
    obtain ⟨fp, hfp⟩ := hok (t, d, p) (List.mem_cons_self _ _)
    have hgt1 : ∀ e ∈ st.fallback, e.1 < t :=
      fun e he => hgt e he _ (List.mem_cons_self _ _)
    have hstep := setPrediction_step t d p fp st hfp hdesc hgt1
    rw [List.map_cons] at hinc
    obtain ⟨hlt_all, hinc2⟩ := List.pairwise_cons.mp hinc
    have hdesc_cons : List.Pairwise (fun a b : ℚ × CachedPrediction => b.1 < a.1)
        ((t, (⟨p, t, fp⟩ : CachedPrediction)) :: st.fallback) :=
      List.Pairwise.cons (fun b hb => hgt1 b hb) hdesc
    have hdesc1 : List.Pairwise (fun a b : ℚ × CachedPrediction => b.1 < a.1)
        (((t, (⟨p, t, fp⟩ : CachedPrediction)) :: st.fallback).take 10) :=
      List.Pairwise.sublist (List.take_sublist 10 _) hdesc_cons
    have hgt2 : ∀ e ∈ ((t, (⟨p, t, fp⟩ : CachedPrediction)) :: st.fallback).take 10,
        ∀ i' ∈ rest, e.1 < i'.1 := by
      intro e he i' hi'
      rcases List.mem_cons.mp (List.take_subset 10 _ he) with rfl | he2
      · exact hlt_all i'.1 (List.mem_map_of_mem _ hi')
      · exact lt_trans (hgt1 e he2) (hlt_all i'.1 (List.mem_map_of_mem _ hi'))
    have hok2 : ∀ i' ∈ rest, ∃ fp', hashData i'.2.1 = Except.ok fp' :=
      fun i' hi' => hok i' (List.mem_cons_of_mem _ hi')
    obtain ⟨st', hrun', hkeys, hdesc'⟩ := ih
      { exact := (fp, ⟨p, t, fp⟩) :: st.exact.filter fun e => decide (e.1 ≠ fp)
        fallback := ((t, ⟨p, t, fp⟩) :: st.fallback).take 10 }
      hdesc1 (by simp) hgt2 hinc2 hok2
    refine ⟨st', ?_, ?_, hdesc'⟩
    · show (match setPrediction noFail t d p st with
        | .error e => .error e
        | .ok st1 => runSets rest st1) = Except.ok st'
      rw [hstep]
      exact hrun'
    · rw [hkeys]
      have hmap1 : (((t, (⟨p, t, fp⟩ : CachedPrediction)) :: st.fallback).take 10).map
          Prod.fst = (t :: st.fallback.map Prod.fst).take 10 := by
        rw [List.map_take, List.map_cons]
      rw [hmap1, List.map_cons, List.reverse_cons, List.append_assoc,
        List.singleton_append]
      exact take_append_take 10 _ _

/-- C5: starting from an empty store, after `N > 10` successful
`setPrediction` calls with strictly increasing timestamps, exactly 10
fallback-log entries remain, and their keys are the 10 largest written
timestamps (newest first) — i.e. the maintenance evicted exactly the
`N − 10` oldest entries by embedded timestamp. -/
theorem fallback_log_bounded (inputs : List (ℚ × DashboardData × MarketPrediction))
    (hinc : List.Pairwise (· < ·) (inputs.map fun i => i.1))
    (hok : ∀ i ∈ inputs, ∃ fp, hashData i.2.1 = Except.ok fp)
    (hN : 10 < inputs.length) :
    ∃ st', runSets inputs emptyStore = Except.ok st' ∧
      st'.fallback.map Prod.fst = ((inputs.map fun i => i.1).reverse).take 10 ∧
      st'.fallback.length = 10 := by
  obtain ⟨st', h1, h2, _⟩ := runSets_fallback_keys inputs emptyStore
    (by simp [emptyStore]) (by simp [emptyStore]) (by simp [emptyStore]) hinc hok
  simp only [emptyStore, List.map_nil, List.append_nil] at h2
  refine ⟨st', h1, h2, ?_⟩
  have hlen := congrArg List.length h2
  simp only [List.length_map, List.length_take, List.length_reverse] at hlen
  omega

/-- Eleven successive writes with strictly increasing timestamps. -/
def elevenInputs : List (ℚ × DashboardData × MarketPrediction) :=
  [(1, curData, ⟨101⟩), (2, curData, ⟨102⟩), (3, curData, ⟨103⟩),
   (4, curData, ⟨104⟩), (5, curData, ⟨105⟩), (6, curData, ⟨106⟩),
   (7, curData, ⟨107⟩), (8, curData, ⟨108⟩), (9, curData, ⟨109⟩),
   (10, curData, ⟨110⟩), (11, curData, ⟨111⟩)]

/-- C5 witness: eleven concrete writes leave exactly the ten newest
fallback keys. -/
theorem fallback_log_bounded_witness :
    List.Pairwise (· < ·) (elevenInputs.map fun i => i.1) ∧
    10 < elevenInputs.length ∧
    ∃ st', runSets elevenInputs emptyStore = Except.ok st' ∧
      st'.fallback.map Prod.fst = ((elevenInputs.map fun i => i.1).reverse).take 10 ∧
      st'.fallback.length = 10 := by
  have hinc : List.Pairwise (· < ·) (elevenInputs.map fun i => i.1) := by
    norm_num [elevenInputs, List.pairwise_cons, List.forall_mem_cons]
  have hok : ∀ i ∈ elevenInputs, ∃ fp, hashData i.2.1 = Except.ok fp := by
    intro i hi
    fin_cases hi <;> exact ⟨fpA, rfl⟩
  exact ⟨hinc, by norm_num [elevenInputs],
    fallback_log_bounded elevenInputs hinc hok (by norm_num [elevenInputs])⟩

/-- Outcome of the `generateMarketPrediction` provider call: a prediction
or a thrown error. -/
inductive ProviderResult
  | ok (p : MarketPrediction)
  | err (e : JsErr)
  deriving DecidableEq, Repr

/-- The JSON responses the route produces after body validation: a
prediction payload with its `isFallback` marker, or an error object with
its `error` code, `isQuotaError` flag and HTTP status. -/
inductive RouteResponse
  | json (p : MarketPrediction) (isFallback : Bool)
  | errorResp (code : String) (isQuota : Bool) (status : ℕ)
  deriving DecidableEq, Repr

/-- Which externals one request touched: whether any durable-store key
was read or written, whether the AI provider was called, and whether the
similarity fallback lookup ran. -/
structure Trace where
  storeAccessed : Bool
  providerCalled : Bool
  fallbackLookup : Bool
  deriving DecidableEq, Repr

/-- The route's `catch` block (lines 60–92): classify the thrown value
with `isQuotaError`; on a quota error run the similarity fallback and
return a match spread with `isFallback: true`, or the 429
`quota_exceeded` error when no match exists; on any other error answer
500 `prediction_failed` immediately, with no fallback lookup.  Returns
the response and whether the fallback lookup ran. -/
noncomputable def routeCatch (now : ℚ) (st : RedisState) (data : DashboardData)
    (e : JsErr) : RouteResponse × Bool :=
  if isQuotaError e then
    match getBestMatchingPrediction now (st.fallback.map Prod.snd) data with
    | some q => (.json q true, true)
    | none => (.errorResp "quota_exceeded" true 429, true)
  else (.errorResp "prediction_failed" false 500, false)

/-- The `POST` handler of `src/app/api/ai-prediction/route.ts` (lines
44–92) after body parsing and model validation: try the exact cache (a
`TypeError` thrown by `hashData` propagates before any store access); on
a hit return the cached prediction; on a miss call the provider; on
success run `setPrediction` and return the fresh prediction; any thrown
error lands in the `catch` block.  Returns the response, the resulting
store state, and the trace of touched externals. -/
noncomputable def POSTroute (fs : FailSpec) (now : ℚ) (st : RedisState)
    (provider : ProviderResult) (data : DashboardData) :
    RouteResponse × RedisState × Trace :=
  match getPrediction st data with
  | .error e =>
    let c := routeCatch now st data e
    (c.1, st, ⟨false, false, c.2⟩)
  | .ok (some p) => (.json p false, st, ⟨true, false, false⟩)
  | .ok none =>
    match provider with
    | .ok p =>
      match setPrediction fs now data p st with
      | .ok st1 => (.json p false, st1, ⟨true, true, false⟩)
      | .error e =>
        let c := routeCatch now st data e
        (c.1, st, ⟨true, true, c.2⟩)
    | .err e =>
      let c := routeCatch now st data e
      (c.1, st, ⟨true, true, c.2⟩)

/-- C4: on a cache miss, when the provider call fails the similarity
fallback runs if and only if the failure is classified as a quota error;
a non-quota failure is answered immediately with the generic 500
`prediction_failed` response and no fallback lookup; a quota failure
returns a successful match marked `isFallback = true`, and the 429
`quota_exceeded` error when no match exists. -/
theorem fallback_iff_quota (fs : FailSpec) (now : ℚ) (st : RedisState)
    (data : DashboardData) (fp : Fingerprint) (e : JsErr)
    (hfp : hashData data = Except.ok fp)
    (hmiss : (st.exact.find? fun en => decide (en.1 = fp)) = none) :
    (POSTroute fs now st (.err e) data).2.2.fallbackLookup = isQuotaError e ∧
    (isQuotaError e = false →
      POSTroute fs now st (.err e) data
        = (.errorResp "prediction_failed" false 500, st, ⟨true, true, false⟩)) ∧
    (isQuotaError e = true →
      (∀ q, getBestMatchingPrediction now (st.fallback.map Prod.snd) data = some q →
        POSTroute fs now st (.err e) data = (.json q true, st, ⟨true, true, true⟩)) ∧
      (getBestMatchingPrediction now (st.fallback.map Prod.snd) data = none →
        POSTroute fs now st (.err e) data
          = (.errorResp "quota_exceeded" true 429, st, ⟨true, true, true⟩))) := by
  have hget : getPrediction st data = Except.ok none := by
    simp only [getPrediction, hfp]
    rw [hmiss]
  unfold POSTroute
  rw [hget]
  unfold routeCatch
  by_cases hq : isQuotaError e = true
  · simp only [hq, if_true]
    refine ⟨?_, fun hcon => absurd hcon (by simp), fun _ => ⟨?_, ?_⟩⟩
    · cases hg : getBestMatchingPrediction now (st.fallback.map Prod.snd) data <;>
        simp [hg]
    · intro q hg
      simp [hg]
    · intro hg
      simp [hg]
  · have hq' : isQuotaError e = false := by simpa using hq
    simp [hq']

/-- C4 witness: a concrete non-quota provider failure on an empty store
is answered 500 with no fallback lookup. -/
theorem fallback_iff_quota_witness :
    hashData curData = Except.ok fpA ∧
    (emptyStore.exact.find? fun en => decide (en.1 = fpA)) = none ∧
    (POSTroute noFail 0 emptyStore (.err .generic) curData).2.2.fallbackLookup
      = isQuotaError .generic ∧
    (isQuotaError .generic = false →
      POSTroute noFail 0 emptyStore (.err .generic) curData
        = (.errorResp "prediction_failed" false 500, emptyStore, ⟨true, true, false⟩)) :=
  ⟨rfl, rfl,
    (fallback_iff_quota noFail 0 emptyStore curData fpA .generic rfl rfl).1,
    (fallback_iff_quota noFail 0 emptyStore curData fpA .generic rfl rfl).2.1⟩

/-- A snapshot missing any required indicator makes `hashData` throw the
generic `TypeError` (reading `.value` of `undefined`) — there is no
distinct missing-indicator error anywhere in the code. -/
theorem hashData_incomplete (data : DashboardData)
    (h : data.us10yYield = none ∨ data.dxy = none ∨ data.highYieldSpread = none ∨
      data.m2MoneySupply = none ∨ data.crudeOil = none ∨ data.copperGold = none ∨
      data.pmi = none ∨ data.putCall = none ∨ data.bitcoin = none) :
    hashData data = Except.error JsErr.typeErr := by
  obtain ⟨u, x, s, m, o, r, p, v, b⟩ := data
  cases u <;> cases x <;> cases s <;> cases m <;> cases o <;> cases r <;>
    cases p <;> cases v <;> cases b <;>
      first
      | rfl
      | simp_all

/-- C8 (amended): a snapshot missing one or more required indicators
makes the fingerprint computation throw a generic `TypeError` — not a
distinct `MissingIndicatorError` — before any store or provider access;
the route catches it and answers with the same generic non-quota
`prediction_failed` 500 response it uses for any other non-quota failure,
so no distinct `InvalidSnapshot` failure is surfaced. -/
theorem missing_indicator_fails_fast (fs : FailSpec) (now : ℚ) (st : RedisState)
    (provider : ProviderResult) (data : DashboardData)
    (h : data.us10yYield = none ∨ data.dxy = none ∨ data.highYieldSpread = none ∨
      data.m2MoneySupply = none ∨ data.crudeOil = none ∨ data.copperGold = none ∨
      data.pmi = none ∨ data.putCall = none ∨ data.bitcoin = none) :
    POSTroute fs now st provider data
      = (.errorResp "prediction_failed" false 500, st, ⟨false, false, false⟩) := by
  have he := hashData_incomplete data h
  have hget : getPrediction st data = Except.error JsErr.typeErr := by
    simp only [getPrediction, he]
  unfold POSTroute
  rw [hget]
  simp [routeCatch, isQuotaError]

/-- A request body lacking the `us10y` indicator object. -/
def incompleteData : DashboardData :=
  ⟨none, some 105, some 310, some 21000, some 80, some (452 / 100), some 48,
    some 1, some 91000⟩

/-- C8 counterexample: the route's answer for a snapshot missing `us10y`
carries the same error code (`prediction_failed`), quota flag (`false`)
and status (500) as its answer for a complete snapshot whose provider
call failed with a non-quota error — no distinct `InvalidSnapshot`
failure exists, and no `MissingIndicatorError` is raised (the thrown
value is the generic `TypeError`). -/
theorem missing_indicator_counterexample :
    hashData incompleteData = Except.error JsErr.typeErr ∧
    (POSTroute noFail 0 emptyStore (.ok ⟨5⟩) incompleteData).1
      = RouteResponse.errorResp "prediction_failed" false 500 ∧
    (POSTroute noFail 0 emptyStore (.err .generic) curData).1
      = RouteResponse.errorResp "prediction_failed" false 500 ∧
    (POSTroute noFail 0 emptyStore (.ok ⟨5⟩) incompleteData).1
      = (POSTroute noFail 0 emptyStore (.err .generic) curData).1 :=
  ⟨rfl, rfl, rfl, rfl⟩

/-- C8 witness: the amended theorem at the concrete incomplete snapshot. -/
theorem missing_indicator_fails_fast_witness :
    incompleteData.us10yYield = none ∧
    POSTroute noFail 0 emptyStore (.ok ⟨5⟩) incompleteData
      = (.errorResp "prediction_failed" false 500, emptyStore, ⟨false, false, false⟩) :=
  ⟨rfl, missing_indicator_fails_fast noFail 0 emptyStore (.ok ⟨5⟩) incompleteData
    (Or.inl rfl)⟩

/-- C10: given a complete snapshot, `setPrediction` returns normally for
every injected store fault — an error in the exact-cache write, the
fallback-log write or the cleanup is caught and swallowed, never
signalled to the caller — and the route still answers with the freshly
generated prediction.  In particular, when the first write throws
(`FailSpec` all `true`), the store is left completely unchanged: the
fresh result reaches the caller without ever being cached or logged for
future fallback. -/
theorem setPrediction_swallows_store_errors
    (fs : FailSpec) (now : ℚ) (st : RedisState) (data : DashboardData)
    (p : MarketPrediction) (fp : Fingerprint)
    (hfp : hashData data = Except.ok fp)
    (hmiss : (st.exact.find? fun en => decide (en.1 = fp)) = none) :
    (∃ st1, setPrediction fs now data p st = Except.ok st1) ∧
    (POSTroute fs now st (.ok p) data).1 = RouteResponse.json p false ∧
    setPrediction ⟨true, true, true⟩ now data p st = Except.ok st ∧
    POSTroute ⟨true, true, true⟩ now st (.ok p) data
      = (RouteResponse.json p false, st, ⟨true, true, false⟩) := by
  have hset : ∀ fs', ∃ st1, setPrediction fs' now data p st = Except.ok st1 := by
    intro fs'
    unfold setPrediction
    rw [hfp]
    exact ⟨_, rfl⟩
  have hget : getPrediction st data = Except.ok none := by
    simp only [getPrediction, hfp]
    rw [hmiss]
  have hallfail : setPrediction ⟨true, true, true⟩ now data p st = Except.ok st := by
    unfold setPrediction
    rw [hfp]
    rfl
  refine ⟨hset fs, ?_, hallfail, ?_⟩
  · obtain ⟨st1, h1⟩ := hset fs
    simp only [POSTroute, hget, h1]
  · simp only [POSTroute, hget, hallfail]

/-- C10 witness: with every store write failing, a fresh prediction is
returned while the store stays empty. -/
theorem setPrediction_swallows_store_errors_witness :
    hashData curData = Except.ok fpA ∧
    setPrediction ⟨true, true, true⟩ 0 curData ⟨7⟩ emptyStore = Except.ok emptyStore ∧
    POSTroute ⟨true, true, true⟩ 0 emptyStore (.ok ⟨7⟩) curData
      = (RouteResponse.json ⟨7⟩ false, emptyStore, ⟨true, true, false⟩) :=
  ⟨rfl,
    (setPrediction_swallows_store_errors ⟨true, true, true⟩ 0 emptyStore curData ⟨7⟩
      fpA rfl rfl).2.2.1,
    (setPrediction_swallows_store_errors ⟨true, true, true⟩ 0 emptyStore curData ⟨7⟩
      fpA rfl rfl).2.2.2⟩

/-- Modelled from the spec: the model-variant-aware fallback log of the
current `gemini-cache-redis.ts` is missing from `src/` — the file present
there is an earlier, variant-free revision, while its caller
`src/app/api/ai-prediction/route.ts` already passes `modelName` to every
cache method and the repository README documents per-model cache
separation.  Per spec §3/§4.4, each fallback-log entry is keyed by
`(modelVariant, producedAt)`. -/
structure VariantStore where
  log : List (String × ℚ × CachedPrediction)
  deriving DecidableEq, Repr

/-- Modelled from the spec: `append(modelVariant, record)` writes the
record under the key `(modelVariant, producedAt)` (spec §4.4; the bounded
maintenance is irrelevant to the isolation claim). -/
def vAppend (variant : String) (ts : ℚ) (c : CachedPrediction)
    (st : VariantStore) : VariantStore :=
  ⟨(variant, ts, c) :: st.log⟩

/-- Modelled from the spec: `listCandidates(modelVariant)` enumerates the
log entries of that variant only (spec §4.4). -/
def listCandidates (variant : String) (st : VariantStore) : List CachedPrediction :=
  (st.log.filter fun e => decide (e.1 = variant)).map fun e => e.2.2

/-- Modelled from the spec: the variant-aware fallback lookup —
`selectBestMatch` applied to `listCandidates(modelVariant)` (spec §4.5) —
with the scorer of the source. -/
noncomputable def vGetBestMatching (now : ℚ) (variant : String)
    (st : VariantStore) (currentData : DashboardData) : Option MarketPrediction :=
  getBestMatchingPrediction now (listCandidates variant st) currentData

/-- The reduce-selected element of a scored candidate list is one of the
candidates, carried with its own score. -/
theorem pickBest_map_mem (score : CachedPrediction → ℝ) (e : CachedPrediction)
    (rest : List CachedPrediction) :
    ∃ cand ∈ e :: rest,
      pickBest (e, score e) (rest.map fun c => (c, score c)) = (cand, score cand) := by
  have hbmem := pickBest_mem (rest.map fun c => (c, score c)) (e, score e)
  rw [show ((e, score e) :: rest.map fun c => (c, score c))
      = (e :: rest).map fun c => (c, score c)
    from (List.map_cons (fun c => (c, score c)) e rest).symm] at hbmem
  obtain ⟨cand, hc, hbc⟩ := List.mem_map.mp hbmem
  exact ⟨cand, hc, hbc.symm⟩

/-- C2: a record appended under variant A is never enumerated for a
distinct variant B — B's candidate list is unchanged by the append — and
every prediction the variant-aware fallback lookup returns for B is the
prediction of a record logged under B itself. -/
theorem cross_variant_isolation (A B : String) (hAB : A ≠ B)
    (ts now : ℚ) (c : CachedPrediction) (st : VariantStore) (d : DashboardData) :
    listCandidates B (vAppend A ts c st) = listCandidates B st ∧
    ∀ p, vGetBestMatching now B st d = some p →
      ∃ e ∈ st.log, e.1 = B ∧ e.2.2.prediction = p := by
  constructor
  · simp [listCandidates, vAppend, hAB]
  · intro p hp
    unfold vGetBestMatching getBestMatchingPrediction at hp
    rcases hl : listCandidates B st with _ | ⟨e, rest⟩
    · rw [hl] at hp
      cases hp
    · rw [hl] at hp
      rcases hh : hashData d with err | fp
      · rw [hh] at hp
        cases hp
      · rw [hh] at hp
        simp only [Option.some.injEq] at hp
        obtain ⟨cand, hcand, hbc⟩ := pickBest_map_mem
          (fun cand => finalScore now (parseHash fp)
            (calculateDynamicRanges ((e :: rest).map fun cc => parseHash cc.dataHash)) cand)
          e rest
        rw [hbc] at hp
        have hcand' : cand ∈ listCandidates B st := by
          rw [hl]
          exact hcand
        obtain ⟨entry, hentry, hec⟩ := List.mem_map.mp hcand'
        have hfil := List.mem_filter.mp hentry
        refine ⟨entry, hfil.1, of_decide_eq_true hfil.2, ?_⟩
        rw [hec, ← hp]

/-- C2 witness: two concrete distinct model variants and an empty log. -/
theorem cross_variant_isolation_witness :
    ("gemini-2.5-flash" : String) ≠ "gemini-2.5-pro" ∧
    (listCandidates "gemini-2.5-pro"
        (vAppend "gemini-2.5-flash" 0 entryIdentOld ⟨[]⟩)
      = listCandidates "gemini-2.5-pro" (⟨[]⟩ : VariantStore) ∧
    ∀ p, vGetBestMatching 0 "gemini-2.5-pro" (⟨[]⟩ : VariantStore) curData = some p →
      ∃ e ∈ (⟨[]⟩ : VariantStore).log, e.1 = "gemini-2.5-pro" ∧ e.2.2.prediction = p) :=
  ⟨by decide, cross_variant_isolation "gemini-2.5-flash" "gemini-2.5-pro" (by decide)
    0 0 entryIdentOld ⟨[]⟩ curData⟩
